import Mathlib

/-!
Verification of the KoTeaBOT request flow (`bot.py`).

The bot receives a free-text song query over a chat transport, validates it
(`handle_text_query`, `handle_possible_link`), searches an external engine for
candidates, downloads and transcodes the first candidate, enforces a 48 MB
size limit, delivers the audio, and unconditionally cleans the per-user
scratch directory and session state in a `finally` block
(`download_and_send`).

The embedding below models the flow as a pure function over an `Env` that
records the behaviour of the external collaborators (the search engine, the
download engine, the filesystem, and the chat transport).  Each transport
operation (`message.answer`, `status_msg.edit_text`, `message.answer_audio`,
`status_msg.delete`) is the k-th send of the request and may fail according
to `Env.sendOk k`; a failed send raises an exception carrying the text
`Env.sendErr k`, exactly as an `await` of the bot API may raise.  Messages
shown to the user are modelled symbolically (`OutMsg`), carrying the data
interpolated into them.  Command messages (`/start`, `/search`) are routed
by separate aiogram handlers and are outside the modelled free-text path.
-/

namespace KoTeaBOT

/-- Configuration constants, from the top of `bot.py`. -/
def MAX_FILE_SIZE_MB : Nat := 48

/-- `SEARCH_LIMIT = 3` in `bot.py`. -/
def SEARCH_LIMIT : Nat := 3

/-- `REQUEST_MAX_LENGTH = 100` in `bot.py`. -/
def REQUEST_MAX_LENGTH : Nat := 100

/-- Python whitespace test used by `str.strip()`, restricted to the ASCII
whitespace characters (space, tab, newline, carriage return, vertical tab,
form feed).  The queries in this development contain no exotic Unicode
whitespace, so this restriction is faithful for every input considered. -/
def pyIsSpace (c : Char) : Bool :=
  c == ' ' || c == '\t' || c == '\n' || c == '\r' ||
  c == Char.ofNat 11 || c == Char.ofNat 12

/-- `str.strip()` on a character list: drop whitespace from the front, then
from the back (implemented by reversing). -/
def pyStripL (l : List Char) : List Char :=
  ((l.dropWhile pyIsSpace).reverse.dropWhile pyIsSpace).reverse

/-- `str.strip()` on a string. -/
def pyStrip (s : String) : String :=
  String.mk (pyStripL s.toList)

/-- The character class of `re.sub(r'[<>:"/\\|?*]', '_', name)` in
`sanitize_filename`. -/
def isForbiddenChar (c : Char) : Bool :=
  c == '<' || c == '>' || c == ':' || c == '"' || c == '/' ||
  c == '\\' || c == '|' || c == '?' || c == '*'

/-- Replacement applied to one character by the `re.sub` in
`sanitize_filename`. -/
def replForbidden (c : Char) : Char :=
  if isForbiddenChar c then '_' else c

/-- `sanitize_filename(name)` from `bot.py` line 87: substitute every
forbidden filesystem character by an underscore, then strip whitespace. -/
def sanitize_filename (s : String) : String :=
  String.mk (pyStripL (s.toList.map replForbidden))

/-- Does `needle` occur at the head of the list (Python `startswith` at one
position / one regex anchor position)? -/
def startsWithL : List Char → List Char → Bool
  | [], _ => true
  | _ :: _, [] => false
  | a :: as, b :: bs => if a = b then startsWithL as bs else false

/-- Does `needle` occur as a contiguous subsequence of the haystack?  This is
the semantics of a successful `re.search` for a fixed literal pattern. -/
def containsSeq (n : List Char) : List Char → Bool
  | [] => n.isEmpty
  | c :: rest => startsWithL n (c :: rest) || containsSeq n rest

/-- `re.search(r"https?://", s)` from `handle_text_query`: the regular
expression matches exactly at occurrences of `http://` or `https://`. -/
def hasUrlScheme (s : String) : Bool :=
  containsSeq "http://".toList s.toList || containsSeq "https://".toList s.toList

/-- The aiogram filter `F.text.startswith(("http://", "https://"))` that
routes a message to `handle_possible_link`. -/
def startsWithHttp (text : String) : Bool :=
  startsWithL "http://".toList text.toList ||
  startsWithL "https://".toList text.toList

/-- The target string handed to the search engine,
`f"ytsearch{SEARCH_LIMIT}:{query}"` from `download_and_send` line 128. -/
def searchString (q : String) : String :=
  "ytsearch" ++ toString SEARCH_LIMIT ++ ":" ++ q

/-- One candidate dictionary of the flat search result (`entries[i]`).
`url` is accessed with `entry["url"]`; the remaining keys are read with
`.get` and may be absent (`none`).  `thumbnails`, when present, is the list
of thumbnail dictionaries, each contributing its optional `url` value. -/
structure Entry where
  url : String
  title : Option String
  duration : Option Nat
  uploader : Option String
  thumbnails : Option (List (Option String))
deriving DecidableEq

/-- The dictionary returned by the search `extract_info`; `entries` is
`none` when the `"entries"` key is missing and `some []` when present but
empty. -/
structure SearchDict where
  entries : Option (List Entry)
deriving DecidableEq

/-- The dictionary returned by the download `extract_info`; `filepath` is
`none` when the `"filepath"` key is missing. -/
structure DlInfo where
  filepath : Option String
deriving DecidableEq

/-- Behaviour of the external collaborators for one request:
the search engine result (or raised exception text), the download engine
result (or raised exception text), the scratch directory scan
(`user_dir.glob("*.mp3")`), file existence and size queries, the outcome of
the k-th transport send (and the exception text when it fails), and the
global bot username. -/
structure Env where
  searchResult : Except String SearchDict
  dlResult : Except String DlInfo
  mp3Files : List String
  fileExists : String → Bool
  fileSize : String → Nat
  sendOk : Nat → Bool
  sendErr : Nat → String
  botUsername : Option String

/-- The messages the bot can show, modelled symbolically with the data that
the source interpolates into them. -/
inductive OutMsg where
  | searching
  | searchFailed
  | nothingFound
  | header (title uploader : String) (duration : Option Nat)
  | noMp3AfterConvert
  | fileNotCreated
  | tooLarge (sizeBytes : Nat)
  | sendingAudio
  | errorNotice (text : String)
  | rejectTooShort
  | rejectTooLong
  | rejectUrl
  | linkOnlyText
deriving DecidableEq

/-- The arguments of the `message.answer_audio` call (lines 212-219). -/
structure AudioSend where
  file : String
  title : String
  performer : String
  duration : Option Nat
  thumbnail : Option String
  query : String
  botTag : Option String
deriving DecidableEq

/-- Observable state accumulated while `download_and_send` runs: delivered
messages, the number of transport sends attempted so far (`k`), the search
target actually handed to the engine, the locator actually fetched, files
removed by `unlink`, the audio delivery, and whether the status message was
deleted. -/
structure FlowAcc where
  msgs : List OutMsg
  k : Nat
  searchTarget : Option String
  fetchUrl : Option String
  deleted : List String
  audio : Option AudioSend
  statusDeleted : Bool
deriving DecidableEq

/-- How the `try` body of `download_and_send` ends: a normal return, or an
exception reaching the outer `except` clause.  `statusBound` records whether
the `status_msg` variable was assigned before the exception (it is unbound
exactly when the very first `message.answer` raised). -/
inductive BodyEnd where
  | normal
  | raised (statusBound : Bool) (e : String)
deriving DecidableEq

/-- Initial accumulator at flow entry. -/
def initAcc : FlowAcc :=
  { msgs := [], k := 0, searchTarget := none, fetchUrl := none,
    deleted := [], audio := none, statusDeleted := false }

/-- One transport send (an `await` of `answer`/`edit_text`): on success the
message is delivered and the counter advances; on failure the counter
advances and the raised exception text is returned. -/
def sendMsg (env : Env) (acc : FlowAcc) (m : OutMsg) :
    Except (FlowAcc × String) FlowAcc :=
  if env.sendOk acc.k then
    .ok { acc with msgs := acc.msgs ++ [m], k := acc.k + 1 }
  else
    .error ({ acc with k := acc.k + 1 }, env.sendErr acc.k)

/-- `entry.get("thumbnails", [{}])[0].get("url")` (line 143): a missing key
defaults to a one-element list of an empty dict, whose `url` is absent; a
present but empty list makes the `[0]` subscript raise `IndexError`. -/
def thumbFirst : Option (List (Option String)) → Except String (Option String)
  | none => .ok none
  | some [] => .error "list index out of range"
  | some (t :: _) => .ok t

/-- `int(duration) if duration else None` (line 216): Python truthiness
sends both `None` and `0` to `None`. -/
def durationArg : Option Nat → Option Nat
  | none => none
  | some n => if n = 0 then none else some n

/-- `types.URLInputFile(thumbnail) if thumbnail else None` (line 217):
`None` and the empty string are both falsy. -/
def thumbArg : Option String → Option String
  | none => none
  | some s => if s = "" then none else some s

/-- `if BOT_USERNAME:` (line 209): the username is appended to the caption
only when it is set and non-empty. -/
def botTagArg : Option String → Option String
  | none => none
  | some s => if s = "" then none else some s

/-- `file_size_mb = filepath.stat().st_size / (1024 * 1024)` (line 190).
Python evaluates this in binary64 floating point; for every byte count below
2^53 the quotient and the comparison against 48 are exact, and beyond that
the comparison is unaffected, so the rational model is faithful.  The value
is written with `mkRat` so that it evaluates by reduction; the theorem for
claim C9 proves it equal to the quotient `(sizeBytes : ℚ) / (1024 * 1024)`. -/
def fileSizeMB (sizeBytes : Nat) : ℚ :=
  mkRat sizeBytes (1024 * 1024)

/-- The test `file_size_mb > MAX_FILE_SIZE_MB` (line 192). -/
def oversizedB (sizeBytes : Nat) : Bool :=
  decide ((MAX_FILE_SIZE_MB : ℚ) < fileSizeMB sizeBytes)

/-- Lines 186-221 of `download_and_send`, from the `filepath.exists()` test
onward: report a missing file, or apply the size limit (edit the status
message, then `unlink` the oversized file, then return), or deliver the
audio and delete the status message. -/
def afterPath (env : Env) (query : String) (acc : FlowAcc)
    (title uploader : String) (duration : Option Nat)
    (thumbnail : Option String) (p : String) : FlowAcc × BodyEnd :=
  if env.fileExists p = false then
    match sendMsg env acc .fileNotCreated with
    | .error (a, e) => (a, .raised true e)
    | .ok a2 => (a2, .normal)
  else
    let size := env.fileSize p
    if oversizedB size then
      match sendMsg env acc (.tooLarge size) with
      | .error (a, e) => (a, .raised true e)
      | .ok a2 => ({ a2 with deleted := a2.deleted ++ [p] }, .normal)
    else
      match sendMsg env acc .sendingAudio with
      | .error (a, e) => (a, .raised true e)
      | .ok a2 =>
        if env.sendOk a2.k then
          let sent : AudioSend :=
            { file := p, title := title, performer := uploader,
              duration := durationArg duration,
              thumbnail := thumbArg thumbnail,
              query := query, botTag := botTagArg env.botUsername }
          let a3 : FlowAcc := { a2 with k := a2.k + 1, audio := some sent }
          if env.sendOk a3.k then
            ({ a3 with statusDeleted := true, k := a3.k + 1 }, .normal)
          else
            ({ a3 with k := a3.k + 1 }, .raised true (env.sendErr a3.k))
        else
          ({ a2 with k := a2.k + 1 }, .raised true (env.sendErr a2.k))

/-- Lines 145-221 of `download_and_send`: show the header message, invoke
the download engine on the chosen candidate's locator, resolve the produced
path (the engine-reported path when present and truthy, otherwise the first
`*.mp3` of the scratch directory), and continue in `afterPath`. -/
def headerStep (env : Env) (query : String) (acc1 : FlowAcc)
    (title uploader : String) (duration : Option Nat)
    (thumbnail : Option String) (url : String) : FlowAcc × BodyEnd :=
  match sendMsg env acc1 (.header title uploader duration) with
  | .error (a, e) => (a, .raised true e)
  | .ok acc2 =>
    let acc2u := { acc2 with fetchUrl := some url }
    match env.dlResult with
    | .error e => (acc2u, .raised true e)
    | .ok info =>
      let fp : Option String :=
        match info.filepath with
        | some q => if q = "" then none else some q
        | none => none
      match fp with
      | some p => afterPath env query acc2u title uploader duration thumbnail p
      | none =>
        match env.mp3Files with
        | p :: _ => afterPath env query acc2u title uploader duration thumbnail p
        | [] =>
          match sendMsg env acc2u .noMp3AfterConvert with
          | .error (a, e) => (a, .raised true e)
          | .ok a2 => (a2, .normal)

/-- Lines 138-143 of `download_and_send`: read the fields of the first
candidate (the `[0]` subscript of an empty thumbnail list raises), then
continue with the header step. -/
def foundCont (env : Env) (query : String) (acc1 : FlowAcc) (entry : Entry) :
    FlowAcc × BodyEnd :=
  let title := sanitize_filename (entry.title.getD "Unknown title")
  let duration := entry.duration
  let uploader := entry.uploader.getD "Unknown artist"
  match thumbFirst entry.thumbnails with
  | .error e => (acc1, .raised true e)
  | .ok thumbnail =>
    headerStep env query acc1 title uploader duration thumbnail entry.url

/-- The `try` body of `download_and_send` (lines 116-221): post the status
message, run the search inside its inner `try`, handle the empty-result
cases, and otherwise continue with the first candidate. -/
def flowBody (env : Env) (query : String) : FlowAcc × BodyEnd :=
  match sendMsg env initAcc .searching with
  | .error (a, e) => (a, .raised false e)
  | .ok acc0 =>
    let acc1 := { acc0 with searchTarget := some (searchString query) }
    match env.searchResult with
    | .error _ =>
      match sendMsg env acc1 .searchFailed with
      | .error (a, e) => (a, .raised true e)
      | .ok a2 => (a2, .normal)
    | .ok sd =>
      match sd.entries with
      | none =>
        match sendMsg env acc1 .nothingFound with
        | .error (a, e) => (a, .raised true e)
        | .ok a2 => (a2, .normal)
      | some [] =>
        match sendMsg env acc1 .nothingFound with
        | .error (a, e) => (a, .raised true e)
        | .ok a2 => (a2, .normal)
      | some (entry :: _) => foundCont env query acc1 entry

/-- `error_text = f"Сталася помилка: {str(e)[:200]}..."` (line 225): the
exception text is truncated to its first 200 characters. -/
def errorText (e : String) : String :=
  "Сталася помилка: " ++ String.mk (e.toList.take 200) ++ "..."

/-- The outer `except` clause (lines 223-229): try to edit the status
message with the error notice; if that itself raises (including the
unbound-variable case when the very first send failed), the bare `except`
falls back to a fresh `message.answer`, whose own failure propagates out of
the flow (returned as `some` exception text). -/
def exceptHandler (env : Env) (acc : FlowAcc) (statusBound : Bool)
    (e : String) : FlowAcc × Option String :=
  let m : OutMsg := .errorNotice (errorText e)
  if statusBound then
    match sendMsg env acc m with
    | .ok a => (a, none)
    | .error (a, _) =>
      match sendMsg env a m with
      | .ok a2 => (a2, none)
      | .error (a2, e2) => (a2, some e2)
  else
    match sendMsg env acc m with
    | .ok a => (a, none)
    | .error (a, e2) => (a, some e2)

/-- `get_user_dir` (lines 90-93): `mkdir(exist_ok=True)`, so the directory
exists afterwards whatever its prior state. -/
def get_user_dir (_dirExists0 : Bool) : Bool := true

/-- `clean_user_dir` (lines 95-97): recursively remove the directory when it
exists; afterwards it does not exist. -/
def clean_user_dir (dirExists : Bool) : Bool :=
  if dirExists then false else dirExists

/-- Final observable outcome of one `download_and_send` call. -/
structure FlowOut where
  msgs : List OutMsg
  searchTarget : Option String
  fetchUrl : Option String
  deleted : List String
  audio : Option AudioSend
  statusDeleted : Bool
  userDirExists : Bool
  stateCleared : Bool
  raised : Option String
deriving DecidableEq

/-- `download_and_send` (lines 108-234): create the scratch directory, run
the `try` body, run the `except` clause when the body raised, and run the
`finally` clause unconditionally (remove the scratch directory; clear the
session state when one was passed).  `raised` is the exception, if any, that
propagates past the flow boundary. -/
def download_and_send (env : Env) (query : String) (hasState : Bool)
    (dirExists0 : Bool) : FlowOut :=
  let dirDuring := get_user_dir dirExists0
  let body := flowBody env query
  let handled : FlowAcc × Option String :=
    match body.2 with
    | .normal => (body.1, none)
    | .raised sb e => exceptHandler env body.1 sb e
  { msgs := handled.1.msgs, searchTarget := handled.1.searchTarget,
    fetchUrl := handled.1.fetchUrl, deleted := handled.1.deleted,
    audio := handled.1.audio, statusDeleted := handled.1.statusDeleted,
    userDirExists := clean_user_dir dirDuring,
    stateCleared := hasState, raised := handled.2 }

/-- Observable outcome of one dispatched text message, including the
session flag after the handler (`awaitingAfter`). -/
structure HandlerOut where
  msgs : List OutMsg
  searchTarget : Option String
  fetchUrl : Option String
  audio : Option AudioSend
  awaitingAfter : Bool
  raised : Option String
deriving DecidableEq

/-- A validation-rejection reply: a single `message.answer` with no
`try` around it and no state operation, so the awaiting-query flag is left
as it was and a failed send propagates. -/
def rejectOut (env : Env) (m : OutMsg) (awaiting : Bool) : HandlerOut :=
  if env.sendOk 0 then
    { msgs := [m], searchTarget := none, fetchUrl := none, audio := none,
      awaitingAfter := awaiting, raised := none }
  else
    { msgs := [], searchTarget := none, fetchUrl := none, audio := none,
      awaitingAfter := awaiting, raised := some (env.sendErr 0) }

/-- `handle_text_query` (lines 260-272): strip the text, reject when too
short, too long, or containing a URL scheme, otherwise run
`download_and_send` with the stripped query and the session state (always
passed, so the flow's `finally` clears the awaiting flag). -/
def handle_text_query (env : Env) (text : String) (awaiting : Bool)
    (dirExists0 : Bool) : HandlerOut :=
  let query := pyStrip text
  if query.length < 3 then
    rejectOut env .rejectTooShort awaiting
  else if query.length > REQUEST_MAX_LENGTH then
    rejectOut env .rejectTooLong awaiting
  else if hasUrlScheme query then
    rejectOut env .rejectUrl awaiting
  else
    let out := download_and_send env query true dirExists0
    { msgs := out.msgs, searchTarget := out.searchTarget,
      fetchUrl := out.fetchUrl, audio := out.audio,
      awaitingAfter := false, raised := out.raised }

/-- `handle_possible_link` (lines 256-258): reply that only text queries
are accepted; no state operation. -/
def handle_possible_link (env : Env) (awaiting : Bool) : HandlerOut :=
  rejectOut env .linkOnlyText awaiting

/-- Router dispatch for a non-command text message: the
`F.text.startswith(("http://", "https://"))` filter routes to
`handle_possible_link`, every other text to `handle_text_query`. -/
def dispatch (env : Env) (text : String) (awaiting : Bool)
    (dirExists0 : Bool) : HandlerOut :=
  if startsWithHttp text then handle_possible_link env awaiting
  else handle_text_query env text awaiting dirExists0

/-- A sample first candidate. -/
def entryA : Entry :=
  { url := "https://youtu.be/abc", title := some "Song", duration := some 215,
    uploader := some "Artist", thumbnails := some [some "https://img/t.jpg"] }

/-- A sample second candidate, used to show it is never consulted. -/
def entryB : Entry :=
  { url := "https://youtu.be/other", title := some "Other", duration := some 5,
    uploader := some "Other Artist", thumbnails := none }

/-- An environment in which every external call succeeds and the produced
file is small. -/
def envAllOk : Env :=
  { searchResult := .ok { entries := some [entryA] },
    dlResult := .ok { filepath := some "downloads/user_1/Song.mp3" },
    mp3Files := ["downloads/user_1/Song.mp3"],
    fileExists := fun _ => true,
    fileSize := fun _ => 1000000,
    sendOk := fun _ => true,
    sendErr := fun _ => "send failed",
    botUsername := some "KoTeaBOT" }

/-- `envAllOk` with two search candidates. -/
def envTwo : Env :=
  { envAllOk with searchResult := .ok { entries := some [entryA, entryB] } }

/-- `envAllOk` with a produced file of exactly 48 * 1024 * 1024 bytes. -/
def env48 : Env :=
  { envAllOk with fileSize := fun _ => 48 * 1024 * 1024 }

/-- `envAllOk` with a produced file of 60 MiB. -/
def env60 : Env :=
  { envAllOk with fileSize := fun _ => 60 * 1024 * 1024 }

/-- An environment in which the search raises and every transport send
after the first one fails: the error notice cannot be delivered and the
final fallback `message.answer` raises out of the flow. -/
def envDoubleFail : Env :=
  { searchResult := .error "search boom",
    dlResult := .ok { filepath := none },
    mp3Files := [],
    fileExists := fun _ => false,
    fileSize := fun _ => 0,
    sendOk := fun k => k = 0,
    sendErr := fun k => "net down " ++ toString k,
    botUsername := none }

/-- `envAllOk` with a search that succeeds but returns an empty candidate
list. -/
def envNoHits : Env :=
  { envAllOk with searchResult := .ok { entries := some [] } }

/-! Helper lemmas about stripping and substring search. -/

theorem toList_mk (l : List Char) : (String.mk l).toList = l := rfl

theorem head?_dropWhile {p : Char → Bool} :
    ∀ {l : List Char} {c : Char}, (l.dropWhile p).head? = some c → p c = false := by
  intro l
  induction l with
  | nil => intro c h; simp [List.dropWhile] at h
  | cons a t ih =>
    intro c h
    rw [List.dropWhile_cons] at h
    by_cases hp : p a
    · rw [if_pos hp] at h; exact ih h
    · rw [if_neg hp] at h
      simp only [List.head?_cons, Option.some.injEq] at h
      simp only [Bool.not_eq_true] at hp
      exact h ▸ hp

theorem getLast?_dropWhile {p : Char → Bool} :
    ∀ {l : List Char}, l.dropWhile p ≠ [] →
      (l.dropWhile p).getLast? = l.getLast? := by
  intro l
  induction l with
  | nil => intro h; simp [List.dropWhile] at h
  | cons a t ih =>
    intro h
    rw [List.dropWhile_cons] at h ⊢
    by_cases hp : p a
    · rw [if_pos hp] at h ⊢
      have ht : t ≠ [] := by
        intro he; subst he; simp [List.dropWhile] at h
      rw [ih h]
      cases t with
      | nil => exact absurd rfl ht
      | cons b t2 => rw [List.getLast?_cons_cons]
    · rw [if_neg hp]

theorem dropWhile_eq_self {p : Char → Bool} {l : List Char}
    (h : ∀ c, l.head? = some c → p c = false) : l.dropWhile p = l := by
  cases l with
  | nil => rfl
  | cons a t =>
    rw [List.dropWhile_cons, if_neg]
    simp [h a rfl]

theorem mem_pyStripL {c : Char} {l : List Char} (h : c ∈ pyStripL l) :
    c ∈ l := by
  unfold pyStripL at h
  rw [List.mem_reverse] at h
  have h2 := (List.dropWhile_sublist pyIsSpace).subset h
  rw [List.mem_reverse] at h2
  exact (List.dropWhile_sublist pyIsSpace).subset h2

theorem head?_pyStripL {l : List Char} {c : Char}
    (h : (pyStripL l).head? = some c) : pyIsSpace c = false := by
  unfold pyStripL at h
  rw [List.head?_reverse] at h
  have hne : (l.dropWhile pyIsSpace).reverse.dropWhile pyIsSpace ≠ [] := by
    intro he; rw [he] at h; simp at h
  rw [getLast?_dropWhile hne, List.getLast?_reverse] at h
  exact head?_dropWhile h

theorem getLast?_pyStripL {l : List Char} {c : Char}
    (h : (pyStripL l).getLast? = some c) : pyIsSpace c = false := by
  unfold pyStripL at h
  rw [List.getLast?_reverse] at h
  exact head?_dropWhile h

theorem pyStripL_eq_self {l : List Char}
    (h1 : l.dropWhile pyIsSpace = l)
    (h2 : l.reverse.dropWhile pyIsSpace = l.reverse) : pyStripL l = l := by
  unfold pyStripL
  rw [h1, h2, List.reverse_reverse]

theorem pyStripL_idem (l : List Char) : pyStripL (pyStripL l) = pyStripL l := by
  apply pyStripL_eq_self
  · exact dropWhile_eq_self (fun c hc => head?_pyStripL hc)
  · have h3 : (pyStripL l).reverse
        = (l.dropWhile pyIsSpace).reverse.dropWhile pyIsSpace := by
      unfold pyStripL; rw [List.reverse_reverse]
    rw [h3]
    exact dropWhile_eq_self (fun c hc => head?_dropWhile hc)

theorem map_eq_self_of_mem {f : Char → Char} :
    ∀ {m : List Char}, (∀ c ∈ m, f c = c) → m.map f = m := by
  intro m
  induction m with
  | nil => intro _; rfl
  | cons a t ih =>
    intro h
    rw [List.map_cons, h a (by simp), ih (fun c hc => h c (by simp [hc]))]

theorem replForbidden_not_forbidden (c : Char) :
    isForbiddenChar (replForbidden c) = false := by
  unfold replForbidden
  by_cases h : isForbiddenChar c
  · rw [if_pos h]; rfl
  · rw [if_neg h]; simpa using h

theorem replForbidden_idem (c : Char) :
    replForbidden (replForbidden c) = replForbidden c := by
  by_cases h : isForbiddenChar c
  · unfold replForbidden
    rw [if_pos h, if_neg (by decide)]
  · unfold replForbidden
    rw [if_neg h, if_neg h]

theorem startsWithL_ex : ∀ {n l : List Char},
    startsWithL n l = true ↔ ∃ t, l = n ++ t := by
  intro n
  induction n with
  | nil => intro l; simp [startsWithL]
  | cons a as ih =>
    intro l
    cases l with
    | nil =>
      simp only [startsWithL, List.cons_append]
      constructor
      · intro h; exact absurd h (by simp)
      · rintro ⟨t, h⟩; exact absurd h (by simp)
    | cons b bs =>
      simp only [startsWithL]
      by_cases hab : a = b
      · subst hab
        rw [if_pos rfl, ih]
        constructor
        · rintro ⟨t, rfl⟩; exact ⟨t, rfl⟩
        · rintro ⟨t, h⟩
          rw [List.cons_append] at h
          injection h with h1 h2
          exact ⟨t, h2⟩
      · rw [if_neg hab]
        constructor
        · intro h; exact absurd h (by simp)
        · rintro ⟨t, h⟩
          rw [List.cons_append] at h
          injection h with h1 h2
          exact absurd h1.symm hab

theorem containsSeq_ex : ∀ {n l : List Char},
    containsSeq n l = true ↔ ∃ s t, l = s ++ n ++ t := by
  intro n l
  induction l with
  | nil =>
    simp only [containsSeq]
    constructor
    · intro h
      rw [List.isEmpty_iff] at h
      exact ⟨[], [], by simp [h]⟩
    · rintro ⟨s, t, h⟩
      have hs := (List.append_eq_nil.mp (List.append_eq_nil.mp h.symm).1).2
      rw [List.isEmpty_iff, hs]
  | cons c rest ih =>
    simp only [containsSeq, Bool.or_eq_true]
    constructor
    · rintro (h | h)
      · obtain ⟨t, ht⟩ := startsWithL_ex.mp h
        exact ⟨[], t, by simp [ht]⟩
      · obtain ⟨s, t, ht⟩ := ih.mp h
        exact ⟨c :: s, t, by simp [ht]⟩
    · rintro ⟨s, t, ht⟩
      cases s with
      | nil =>
        exact Or.inl (startsWithL_ex.mpr ⟨t, by simpa using ht⟩)
      | cons s0 s1 =>
        refine Or.inr (ih.mpr ⟨s1, t, ?_⟩)
        have h3 : c :: rest = s0 :: (s1 ++ n ++ t) := by rw [ht]; simp
        injection h3

theorem dropWhile_keeps_seq {p : Char → Bool} {n : List Char}
    (hc : ∀ c ∈ n, p c = false) (hn : n ≠ []) :
    ∀ (s t : List Char), ∃ s2 t2, (s ++ n ++ t).dropWhile p = s2 ++ n ++ t2 := by
  intro s
  induction s with
  | nil =>
    intro t
    cases n with
    | nil => exact absurd rfl hn
    | cons a as =>
      refine ⟨[], t, ?_⟩
      have h4 : ([] ++ (a :: as) ++ t : List Char) = a :: (as ++ t) := by simp
      rw [h4, List.dropWhile_cons, if_neg (by simp [hc a (by simp)])]
  | cons b s1 ih =>
    intro t
    have hb : ((b :: s1) ++ n ++ t) = b :: (s1 ++ n ++ t) := by simp
    rw [hb, List.dropWhile_cons]
    by_cases hpb : p b
    · rw [if_pos hpb]; exact ih t
    · rw [if_neg hpb]
      exact ⟨b :: s1, t, by simp⟩

theorem containsSeq_pyStripL {n : List Char}
    (hc : ∀ c ∈ n, pyIsSpace c = false) (hn : n ≠ [])
    {l : List Char} (h : containsSeq n l = true) :
    containsSeq n (pyStripL l) = true := by
  obtain ⟨s, t, rfl⟩ := containsSeq_ex.mp h
  obtain ⟨s2, t2, h2⟩ := dropWhile_keeps_seq hc hn s t
  have hc2 : ∀ c ∈ n.reverse, pyIsSpace c = false :=
    fun c hm => hc c (List.mem_reverse.mp hm)
  have hn2 : n.reverse ≠ [] := by simpa using hn
  obtain ⟨s3, t3, h3⟩ := dropWhile_keeps_seq hc2 hn2 t2.reverse s2.reverse
  unfold pyStripL
  rw [h2]
  have hrev : (s2 ++ n ++ t2).reverse = t2.reverse ++ n.reverse ++ s2.reverse := by
    simp [List.reverse_append, List.append_assoc]
  rw [hrev, h3]
  apply containsSeq_ex.mpr
  exact ⟨t3.reverse, s3.reverse, by simp [List.reverse_append, List.append_assoc]⟩

theorem hasUrlScheme_pyStrip {text : String} (h : hasUrlScheme text = true) :
    hasUrlScheme (pyStrip text) = true := by
  unfold hasUrlScheme at h ⊢
  rw [Bool.or_eq_true] at h ⊢
  have toL : (pyStrip text).toList = pyStripL text.toList := rfl
  rw [toL]
  cases h with
  | inl h => exact Or.inl (containsSeq_pyStripL (by decide) (by decide) h)
  | inr h => exact Or.inr (containsSeq_pyStripL (by decide) (by decide) h)

/-! Helper lemmas about the flow. -/

theorem sendMsg_pos {env : Env} {acc : FlowAcc} {m : OutMsg}
    (h : env.sendOk acc.k = true) :
    sendMsg env acc m = .ok { acc with msgs := acc.msgs ++ [m], k := acc.k + 1 } := by
  unfold sendMsg; rw [if_pos h]

theorem sendMsg_neg {env : Env} {acc : FlowAcc} {m : OutMsg}
    (h : env.sendOk acc.k = false) :
    sendMsg env acc m = .error ({ acc with k := acc.k + 1 }, env.sendErr acc.k) := by
  unfold sendMsg; rw [if_neg (by simp [h])]

theorem exceptHandler_parts (env : Env) (acc : FlowAcc) (sb : Bool) (e : String) :
    (exceptHandler env acc sb e).1.searchTarget = acc.searchTarget ∧
    (exceptHandler env acc sb e).1.fetchUrl = acc.fetchUrl ∧
    (exceptHandler env acc sb e).1.audio = acc.audio ∧
    (exceptHandler env acc sb e).1.deleted = acc.deleted := by
  unfold exceptHandler
  by_cases h1 : env.sendOk acc.k = true
  · cases sb <;> simp [sendMsg_pos h1]
  · rw [Bool.not_eq_true] at h1
    by_cases h2 : env.sendOk (acc.k + 1) = true
    · cases sb <;>
        simp [sendMsg_neg h1, sendMsg_pos (show env.sendOk
          ({ acc with k := acc.k + 1 } : FlowAcc).k = true from h2)]
    · rw [Bool.not_eq_true] at h2
      cases sb <;>
        simp [sendMsg_neg h1, sendMsg_neg (show env.sendOk
          ({ acc with k := acc.k + 1 } : FlowAcc).k = false from h2)]

theorem exceptHandler_raised (env : Env) (acc : FlowAcc) (sb : Bool) (e : String)
    {r : String} (h : (exceptHandler env acc sb e).2 = some r) :
    ∃ j, env.sendOk j = false ∧ r = env.sendErr j := by
  unfold exceptHandler at h
  by_cases h1 : env.sendOk acc.k = true
  · cases sb <;> simp [sendMsg_pos h1] at h
  · rw [Bool.not_eq_true] at h1
    by_cases h2 : env.sendOk (acc.k + 1) = true
    · cases sb <;>
        simp [sendMsg_neg h1, sendMsg_pos (show env.sendOk
          ({ acc with k := acc.k + 1 } : FlowAcc).k = true from h2)] at h
      exact ⟨acc.k, h1, h.symm⟩
    · rw [Bool.not_eq_true] at h2
      cases sb <;>
        simp [sendMsg_neg h1, sendMsg_neg (show env.sendOk
          ({ acc with k := acc.k + 1 } : FlowAcc).k = false from h2)] at h
      · exact ⟨acc.k, h1, h.symm⟩
      · exact ⟨acc.k + 1, h2, h.symm⟩

theorem exceptHandler_ok_of_sendOk (env : Env) (acc : FlowAcc) (sb : Bool)
    (e : String) (hall : ∀ j, env.sendOk j = true) :
    (exceptHandler env acc sb e).2 = none := by
  unfold exceptHandler
  cases sb <;> simp [sendMsg_pos (hall acc.k)]

theorem afterPath_parts (env : Env) (q : String) (a : FlowAcc)
    (t u : String) (dur : Option Nat) (th : Option String) (p : String) :
    (afterPath env q a t u dur th p).1.searchTarget = a.searchTarget ∧
    (afterPath env q a t u dur th p).1.fetchUrl = a.fetchUrl := by
  unfold afterPath
  by_cases hE : env.fileExists p = false
  · rw [if_pos hE]
    cases hk : env.sendOk a.k with
    | false => simp [sendMsg_neg hk]
    | true => simp [sendMsg_pos hk]
  · rw [if_neg hE]
    by_cases hB : oversizedB (env.fileSize p) = true
    · rw [if_pos hB]
      cases hk : env.sendOk a.k with
      | false => simp [sendMsg_neg hk]
      | true => simp [sendMsg_pos hk]
    · rw [if_neg hB]
      cases hk : env.sendOk a.k with
      | false => simp [sendMsg_neg hk]
      | true =>
        simp only [sendMsg_pos hk]
        cases hk1 : env.sendOk (a.k + 1) with
        | false => simp [hk1]
        | true =>
          simp only [hk1, if_true]
          cases hk2 : env.sendOk (a.k + 1 + 1) with
          | false => simp [hk2]
          | true => simp [hk2]

theorem afterPath_searchTarget (env : Env) (q : String) (a : FlowAcc)
    (t u : String) (dur : Option Nat) (th : Option String) (p : String) :
    (afterPath env q a t u dur th p).1.searchTarget = a.searchTarget :=
  (afterPath_parts env q a t u dur th p).1

theorem afterPath_fetchUrl (env : Env) (q : String) (a : FlowAcc)
    (t u : String) (dur : Option Nat) (th : Option String) (p : String) :
    (afterPath env q a t u dur th p).1.fetchUrl = a.fetchUrl :=
  (afterPath_parts env q a t u dur th p).2

theorem headerStep_parts (env : Env) (q : String) (a : FlowAcc)
    (t u : String) (dur : Option Nat) (th : Option String) (url : String) :
    (headerStep env q a t u dur th url).1.searchTarget = a.searchTarget ∧
    ((headerStep env q a t u dur th url).1.fetchUrl = a.fetchUrl ∨
     (headerStep env q a t u dur th url).1.fetchUrl = some url) := by
  unfold headerStep
  cases hk : env.sendOk a.k with
  | false => simp [sendMsg_neg hk]
  | true =>
    simp only [sendMsg_pos hk]
    cases hD : env.dlResult with
    | error s => simp
    | ok info =>
      cases hfp : info.filepath with
      | some pp =>
        simp only [hfp]
        by_cases hpe : pp = ""
        · rw [if_pos hpe]
          cases hm : env.mp3Files with
          | nil =>
            simp only [hm]
            cases hk1 : env.sendOk (a.k + 1) with
            | false => simp [sendMsg, hk1]
            | true => simp [sendMsg, hk1]
          | cons p ps =>
            simp only [hm, afterPath_searchTarget, afterPath_fetchUrl]
            simp
        · rw [if_neg hpe]
          simp only [afterPath_searchTarget, afterPath_fetchUrl]
          simp
      | none =>
        simp only [hfp]
        cases hm : env.mp3Files with
        | nil =>
          simp only [hm]
          cases hk1 : env.sendOk (a.k + 1) with
          | false => simp [sendMsg, hk1]
          | true => simp [sendMsg, hk1]
        | cons p ps =>
          simp only [hm, afterPath_searchTarget, afterPath_fetchUrl]
          simp

theorem foundCont_parts (env : Env) (q : String) (a : FlowAcc) (e : Entry) :
    (foundCont env q a e).1.searchTarget = a.searchTarget ∧
    ((foundCont env q a e).1.fetchUrl = a.fetchUrl ∨
     (foundCont env q a e).1.fetchUrl = some e.url) := by
  unfold foundCont
  cases hT : thumbFirst e.thumbnails with
  | error s => simp
  | ok th => exact headerStep_parts env q a _ _ _ th e.url

theorem flowBody_searchTarget (env : Env) (q : String)
    (h0 : env.sendOk initAcc.k = true) :
    (flowBody env q).1.searchTarget = some (searchString q) := by
  unfold flowBody
  simp only [sendMsg_pos h0]
  cases hS : env.searchResult with
  | error s =>
    cases hk1 : env.sendOk 1 with
    | false => simp [sendMsg, initAcc, hk1]
    | true => simp [sendMsg, initAcc, hk1]
  | ok sd =>
    cases hE : sd.entries with
    | none =>
      simp only [hE]
      cases hk1 : env.sendOk 1 with
      | false => simp [sendMsg, initAcc, hk1]
      | true => simp [sendMsg, initAcc, hk1]
    | some l =>
      cases l with
      | nil =>
        simp only [hE]
        cases hk1 : env.sendOk 1 with
        | false => simp [sendMsg, initAcc, hk1]
        | true => simp [sendMsg, initAcc, hk1]
      | cons e es =>
        simp only [hE]
        rw [(foundCont_parts env q _ e).1]

theorem flowBody_fetchUrl (env : Env) (q : String) (e : Entry)
    (rest : List Entry)
    (hS : env.searchResult = .ok { entries := some (e :: rest) }) :
    (flowBody env q).1.fetchUrl = none ∨
    (flowBody env q).1.fetchUrl = some e.url := by
  unfold flowBody
  by_cases h0 : env.sendOk initAcc.k = true
  · simp only [sendMsg_pos h0, hS]
    refine ((foundCont_parts env q _ e).2).imp (fun h => ?_) id
    rw [h]
    simp [initAcc]
  · rw [Bool.not_eq_true] at h0
    have h0n : env.sendOk 0 = false := h0
    simp [sendMsg, initAcc, h0n]

theorem download_parts (env : Env) (q : String) (hs d0 : Bool) :
    (download_and_send env q hs d0).searchTarget
      = (flowBody env q).1.searchTarget ∧
    (download_and_send env q hs d0).fetchUrl = (flowBody env q).1.fetchUrl ∧
    (download_and_send env q hs d0).audio = (flowBody env q).1.audio ∧
    (download_and_send env q hs d0).deleted = (flowBody env q).1.deleted := by
  unfold download_and_send
  cases hb : (flowBody env q).2 with
  | normal => simp [hb]
  | raised sb e =>
    simp only [hb]
    have hp := exceptHandler_parts env (flowBody env q).1 sb e
    simp [hp.1, hp.2.1, hp.2.2.1, hp.2.2.2]

theorem download_msgs_normal (env : Env) (q : String) (hs d0 : Bool)
    (hb : (flowBody env q).2 = .normal) :
    (download_and_send env q hs d0).msgs = (flowBody env q).1.msgs := by
  unfold download_and_send
  simp [hb]

theorem rejectOut_spec (env : Env) (m : OutMsg) (awaiting : Bool) :
    (rejectOut env m awaiting).searchTarget = none ∧
    (env.sendOk 0 = true → (rejectOut env m awaiting).msgs = [m]) := by
  unfold rejectOut
  by_cases h0 : env.sendOk 0 = true
  · simp [h0]
  · rw [Bool.not_eq_true] at h0
    simp [h0]

theorem flowBody_empty (env : Env) (q : String)
    (hS : (∃ s, env.searchResult = .error s) ∨
      env.searchResult = .ok { entries := none } ∨
      env.searchResult = .ok { entries := some [] }) :
    (flowBody env q).1.fetchUrl = none ∧ (flowBody env q).1.audio = none ∧
    (env.sendOk 0 = true → env.sendOk 1 = true →
      (flowBody env q).2 = .normal ∧
      ∃ m, (flowBody env q).1.msgs = [OutMsg.searching, m] ∧
        (m = OutMsg.searchFailed ∨ m = OutMsg.nothingFound)) := by
  by_cases h0 : env.sendOk 0 = true
  · rcases hS with ⟨s, hSe⟩ | hSe | hSe
    all_goals (
      by_cases h1 : env.sendOk 1 = true
      · refine ⟨?_, ?_, fun _ _ => ⟨?_, ?_⟩⟩ <;>
          simp [flowBody, sendMsg, initAcc, hSe, h0, h1]
      · rw [Bool.not_eq_true] at h1
        refine ⟨?_, ?_, fun _ hy => absurd hy (by simp [h1])⟩ <;>
          simp [flowBody, sendMsg, initAcc, hSe, h0, h1])
  · rw [Bool.not_eq_true] at h0
    refine ⟨?_, ?_, fun hx _ => absurd hx (by simp [h0])⟩ <;>
      simp [flowBody, sendMsg, initAcc, h0]

/-! Claim theorems. -/

/-- C1: for every request that enters `download_and_send`, whatever terminal
branch is taken — success, not-found, fetch error, oversized file, missing
output file, or any raised exception — the `finally` step removes the
per-user scratch directory before the flow returns, so after every request
the scratch directory does not exist. -/
theorem scratch_dir_absent_after_flow (env : Env) (q : String)
    (hasState dirExists0 : Bool) :
    (download_and_send env q hasState dirExists0).userDirExists = false := rfl

/-- C2: every free-text query whose stripped length is below 3 or above 100,
or that contains an `http://` or `https://` URL scheme, is rejected with a
single observable rejection message (delivered when the transport send
succeeds) and the external search is never invoked. -/
theorem invalid_query_rejected_before_search (env : Env) (text : String)
    (awaiting dirExists0 : Bool)
    (h : (pyStrip text).length < 3 ∨
      REQUEST_MAX_LENGTH < (pyStrip text).length ∨
      hasUrlScheme text = true) :
    (dispatch env text awaiting dirExists0).searchTarget = none ∧
    (env.sendOk 0 = true →
      ∃ m, (dispatch env text awaiting dirExists0).msgs = [m] ∧
        (m = OutMsg.rejectTooShort ∨ m = OutMsg.rejectTooLong ∨
         m = OutMsg.rejectUrl ∨ m = OutMsg.linkOnlyText)) := by
  unfold dispatch
  by_cases hh : startsWithHttp text = true
  · rw [if_pos hh]
    unfold handle_possible_link
    exact ⟨(rejectOut_spec env _ awaiting).1,
      fun h0 => ⟨_, (rejectOut_spec env _ awaiting).2 h0, by simp⟩⟩
  · rw [Bool.not_eq_true] at hh
    rw [if_neg (by simp [hh])]
    simp only [handle_text_query]
    by_cases h1 : (pyStrip text).length < 3
    · rw [if_pos h1]
      exact ⟨(rejectOut_spec env _ awaiting).1,
        fun h0 => ⟨_, (rejectOut_spec env _ awaiting).2 h0, by simp⟩⟩
    · rw [if_neg h1]
      by_cases h2 : (pyStrip text).length > REQUEST_MAX_LENGTH
      · rw [if_pos h2]
        exact ⟨(rejectOut_spec env _ awaiting).1,
          fun h0 => ⟨_, (rejectOut_spec env _ awaiting).2 h0, by simp⟩⟩
      · rw [if_neg h2]
        have hu : hasUrlScheme (pyStrip text) = true := by
          rcases h with hx | hx | hx
          · exact absurd hx h1
          · exact absurd hx h2
          · exact hasUrlScheme_pyStrip hx
        rw [if_pos hu]
        exact ⟨(rejectOut_spec env _ awaiting).1,
          fun h0 => ⟨_, (rejectOut_spec env _ awaiting).2 h0, by simp⟩⟩

theorem invalid_query_rejected_before_search_w :
    (dispatch envAllOk "ab" false true).searchTarget = none ∧
    (∃ m, (dispatch envAllOk "ab" false true).msgs = [m] ∧
      (m = OutMsg.rejectTooShort ∨ m = OutMsg.rejectTooLong ∨
       m = OutMsg.rejectUrl ∨ m = OutMsg.linkOnlyText)) := by
  have h := invalid_query_rejected_before_search envAllOk "ab" false true
    (Or.inl (by decide))
  exact ⟨h.1, h.2 rfl⟩

/-- C3: when the fetch produced a file that exists and whose size exceeds
the 48 MB threshold, the flow reports the oversized outcome, unlinks the
file, and returns without any audio delivery. -/
theorem oversized_file_deleted_no_delivery (env : Env) (q : String)
    (hasState dirExists0 : Bool) (e : Entry) (rest : List Entry)
    (th : Option String) (p : String)
    (hS : env.searchResult = .ok { entries := some (e :: rest) })
    (hT : thumbFirst e.thumbnails = .ok th)
    (hD : env.dlResult = .ok { filepath := some p })
    (hp : ¬ p = "")
    (hE : env.fileExists p = true)
    (hBig : oversizedB (env.fileSize p) = true)
    (h0 : env.sendOk 0 = true) (h1 : env.sendOk 1 = true)
    (h2 : env.sendOk 2 = true) :
    (download_and_send env q hasState dirExists0).audio = none ∧
    (download_and_send env q hasState dirExists0).deleted = [p] ∧
    OutMsg.tooLarge (env.fileSize p)
      ∈ (download_and_send env q hasState dirExists0).msgs := by
  refine ⟨?_, ?_, ?_⟩ <;>
    simp [download_and_send, flowBody, foundCont, headerStep, afterPath,
      sendMsg, initAcc, hS, hT, hD, hp, hE, hBig, h0, h1, h2]

theorem oversized_file_deleted_no_delivery_w :
    (download_and_send env60 "abc" true true).audio = none ∧
    (download_and_send env60 "abc" true true).deleted
      = ["downloads/user_1/Song.mp3"] ∧
    OutMsg.tooLarge (env60.fileSize "downloads/user_1/Song.mp3")
      ∈ (download_and_send env60 "abc" true true).msgs :=
  oversized_file_deleted_no_delivery env60 "abc" true true entryA []
    (some "https://img/t.jpg") "downloads/user_1/Song.mp3"
    rfl rfl rfl (by decide) rfl rfl rfl rfl rfl

/-- C4 counterexample: a validation rejection does not clear the
awaiting-query flag.  With the flag set, the two-character query `"ab"` is
rejected with the too-short message, yet the flag is still set afterwards,
contradicting the claim that every terminal outcome, including validation
rejection, clears the session state. -/
theorem validation_reject_keeps_awaiting_flag :
    (dispatch envAllOk "ab" true true).msgs = [OutMsg.rejectTooShort] ∧
    (dispatch envAllOk "ab" true true).awaitingAfter = true :=
  ⟨rfl, rfl⟩

/-- C4 amended: every terminal outcome of `download_and_send` itself
(not-found, oversized, fetch error, success, even an escaping exception)
clears the session state, because the flow's `finally` always runs and every
call of the flow passes the state; but a validation rejection (and the
URL-prefix handler) returns with the awaiting-query flag unchanged. -/
theorem flow_terminal_clears_state :
    (∀ env q d0, (download_and_send env q true d0).stateCleared = true) ∧
    (∀ env text awaiting d0,
      startsWithHttp text = false →
      ¬ (pyStrip text).length < 3 →
      ¬ (pyStrip text).length > REQUEST_MAX_LENGTH →
      hasUrlScheme (pyStrip text) = false →
      (dispatch env text awaiting d0).awaitingAfter = false) := by
  constructor
  · intro env q d0
    rfl
  · intro env text awaiting d0 hh h1 h2 h3
    unfold dispatch
    rw [if_neg (by simp [hh])]
    simp only [handle_text_query]
    rw [if_neg h1, if_neg h2, if_neg (by simp [h3])]

theorem flow_terminal_clears_state_w :
    (dispatch envAllOk "abc" true true).awaitingAfter = false :=
  flow_terminal_clears_state.2 envAllOk "abc" true true
    (by decide) (by decide) (by decide) (by decide)

/-- C5: when the search raises, or succeeds without an `entries` key, or
with an empty candidate list, the user sees the searching message followed
by one not-found message (when the transport works) and the flow returns
without invoking the download engine or delivering audio. -/
theorem empty_search_not_found_no_fetch (env : Env) (q : String)
    (hasState dirExists0 : Bool)
    (hS : (∃ s, env.searchResult = .error s) ∨
      env.searchResult = .ok { entries := none } ∨
      env.searchResult = .ok { entries := some [] }) :
    (download_and_send env q hasState dirExists0).fetchUrl = none ∧
    (download_and_send env q hasState dirExists0).audio = none ∧
    (env.sendOk 0 = true → env.sendOk 1 = true →
      ∃ m, (download_and_send env q hasState dirExists0).msgs
          = [OutMsg.searching, m] ∧
        (m = OutMsg.searchFailed ∨ m = OutMsg.nothingFound)) := by
  obtain ⟨hf, ha, hm⟩ := flowBody_empty env q hS
  have hd := download_parts env q hasState dirExists0
  refine ⟨hd.2.1.trans hf, hd.2.2.1.trans ha, fun h0 h1 => ?_⟩
  obtain ⟨hnorm, m, hmsgs, hcase⟩ := hm h0 h1
  exact ⟨m, (download_msgs_normal env q hasState dirExists0 hnorm).trans hmsgs,
    hcase⟩

theorem empty_search_not_found_no_fetch_w :
    (download_and_send envNoHits "abc" true true).fetchUrl = none ∧
    (download_and_send envNoHits "abc" true true).audio = none ∧
    (∃ m, (download_and_send envNoHits "abc" true true).msgs
        = [OutMsg.searching, m] ∧
      (m = OutMsg.searchFailed ∨ m = OutMsg.nothingFound)) := by
  have h := empty_search_not_found_no_fetch envNoHits "abc" true true
    (Or.inr (Or.inr rfl))
  exact ⟨h.1, h.2.1, h.2.2 rfl rfl⟩

/-- C6 counterexample: the query handed to the search step is the stripped
text, not the raw text.  For the raw input `" abc "` the search target is
built from `"abc"`, which differs from the target the claim predicts. -/
theorem search_query_not_raw_text :
    (dispatch envAllOk " abc " false true).searchTarget
      = some (searchString "abc") ∧
    searchString "abc" ≠ searchString " abc " :=
  ⟨rfl, by decide⟩

/-- C6 amended: for every raw input that passes validation, the query
passed onward to the search step is the stripped raw text (so it equals the
raw text exactly when the raw text has no leading or trailing whitespace). -/
theorem search_query_is_stripped_text (env : Env) (text : String)
    (awaiting dirExists0 : Bool)
    (h0 : env.sendOk 0 = true)
    (hh : startsWithHttp text = false)
    (h1 : ¬ (pyStrip text).length < 3)
    (h2 : ¬ (pyStrip text).length > REQUEST_MAX_LENGTH)
    (h3 : hasUrlScheme (pyStrip text) = false) :
    (dispatch env text awaiting dirExists0).searchTarget
      = some (searchString (pyStrip text)) := by
  unfold dispatch
  rw [if_neg (by simp [hh])]
  simp only [handle_text_query]
  rw [if_neg h1, if_neg h2, if_neg (by simp [h3])]
  rw [(download_parts env (pyStrip text) true dirExists0).1]
  exact flowBody_searchTarget env (pyStrip text) h0

theorem search_query_is_stripped_text_w :
    (dispatch envAllOk " abc " false true).searchTarget
      = some (searchString (pyStrip " abc ")) :=
  search_query_is_stripped_text envAllOk " abc " false true
    rfl (by decide) (by decide) (by decide) (by decide)

/-- C7: when the search returns a non-empty candidate list, the whole flow
outcome depends only on the first candidate — replacing the tail by the
empty list changes nothing — and the only locator ever handed to the
download engine is the first candidate's `url` (no fallback to later
candidates, whatever the first one's fetch does). -/
theorem only_first_candidate_used (env : Env) (q : String)
    (hasState dirExists0 : Bool) (e : Entry) (rest : List Entry)
    (hS : env.searchResult = .ok { entries := some (e :: rest) }) :
    download_and_send env q hasState dirExists0
      = download_and_send
          { env with searchResult := .ok { entries := some [e] } }
          q hasState dirExists0 ∧
    ((download_and_send env q hasState dirExists0).fetchUrl = none ∨
     (download_and_send env q hasState dirExists0).fetchUrl = some e.url) := by
  constructor
  · have hb : flowBody env q
        = flowBody { env with
            searchResult := .ok { entries := some [e] } } q := by
      unfold flowBody
      rw [hS]
      rfl
    unfold download_and_send
    rw [hb]
    rfl
  · rw [(download_parts env q hasState dirExists0).2.1]
    exact flowBody_fetchUrl env q e rest hS

theorem only_first_candidate_used_w :
    download_and_send envTwo "q" true true
      = download_and_send
          { envTwo with searchResult := .ok { entries := some [entryA] } }
          "q" true true ∧
    ((download_and_send envTwo "q" true true).fetchUrl = none ∨
     (download_and_send envTwo "q" true true).fetchUrl = some entryA.url) :=
  only_first_candidate_used envTwo "q" true true entryA [entryB] rfl

/-- C8 counterexample: an exception can escape the flow boundary.  In
`envDoubleFail` the search raises, the status-message edit with the error
notice raises, and the bare-`except` fallback `message.answer` raises too;
that last exception propagates out of `download_and_send`, contradicting
the claim that every exception is caught and never re-raised. -/
theorem exception_can_escape_flow :
    (download_and_send envDoubleFail "abc" true true).raised
      = some "net down 3" := rfl

/-- C8 amended: every exception raised in the body of `download_and_send`
is caught at the flow boundary — in particular nothing escapes when the
transport sends succeed — and an exception escapes only as the transport
error of a failed send of the error notice (the status edit and the
fallback answer both failing); the user-facing error message is built from
at most the first 200 characters of the exception text, bounding its length
by 220 characters; no failed operation is retried. -/
theorem exceptions_caught_unless_error_report_fails :
    (∀ env q hasState dirExists0, (∀ j, env.sendOk j = true) →
      (download_and_send env q hasState dirExists0).raised = none) ∧
    (∀ env q hasState dirExists0 r,
      (download_and_send env q hasState dirExists0).raised = some r →
      ∃ j, env.sendOk j = false ∧ r = env.sendErr j) ∧
    (∀ s, errorText s
        = "Сталася помилка: " ++ String.mk (s.toList.take 200) ++ "..." ∧
      (errorText s).length ≤ 220) := by
  refine ⟨?_, ?_, ?_⟩
  · intro env q hs d0 hall
    unfold download_and_send
    cases hb : (flowBody env q).2 with
    | normal => simp [hb]
    | raised sb s => simp [hb, exceptHandler_ok_of_sendOk env _ sb s hall]
  · intro env q hs d0 r hr
    simp only [download_and_send] at hr
    cases hb : (flowBody env q).2 with
    | normal => rw [hb] at hr; simp at hr
    | raised sb s =>
      rw [hb] at hr
      exact exceptHandler_raised env (flowBody env q).1 sb s (by simpa using hr)
  · intro s
    refine ⟨rfl, ?_⟩
    unfold errorText
    rw [String.length_append, String.length_append]
    have h1 : ("Сталася помилка: " : String).length = 17 := rfl
    have h2 : ("..." : String).length = 3 := rfl
    have h3 : (String.mk (s.toList.take 200)).length
        = (s.toList.take 200).length := rfl
    rw [h1, h2, h3, List.length_take]
    have h4 := Nat.min_le_left 200 s.toList.length
    omega

theorem exceptions_caught_unless_error_report_fails_w :
    (download_and_send envAllOk "abc" true true).raised = none :=
  exceptions_caught_unless_error_report_fails.1 envAllOk "abc" true true
    (fun _ => rfl)

/-- C9: the size limit is a strict comparison in binary megabytes: the
modelled quotient equals `st_size / (1024 * 1024)`, the oversized test
holds exactly when the byte count strictly exceeds `48 * 1024 * 1024`, a
file of exactly `48 * 1024 * 1024` bytes is not rejected, and a run with
such a file proceeds to audio delivery. -/
theorem size_limit_strict_binary_mb :
    (∀ n : ℕ, fileSizeMB n = (n : ℚ) / (1024 * 1024)) ∧
    (∀ n : ℕ, (oversizedB n = true ↔ 48 * 1024 * 1024 < n)) ∧
    oversizedB (48 * 1024 * 1024) = false ∧
    (download_and_send env48 "abc" true true).audio.isSome = true := by
  have hdiv : ∀ n : ℕ, fileSizeMB n = (n : ℚ) / (1024 * 1024) := by
    intro n
    unfold fileSizeMB
    rw [Rat.mkRat_eq_div]
    norm_num
  have hiff : ∀ n : ℕ, (oversizedB n = true ↔ 48 * 1024 * 1024 < n) := by
    intro n
    unfold oversizedB MAX_FILE_SIZE_MB
    rw [decide_eq_true_eq, hdiv n, lt_div_iff₀ (by norm_num)]
    rw [show ((48 : ℕ) : ℚ) * (1024 * 1024) = ((48 * 1024 * 1024 : ℕ) : ℚ)
      by push_cast; ring]
    exact Nat.cast_lt
  refine ⟨hdiv, hiff, ?_, rfl⟩
  have := hiff (48 * 1024 * 1024)
  cases ho : oversizedB (48 * 1024 * 1024) with
  | false => rfl
  | true => exact absurd (this.mp ho) (by norm_num)

/-- C10: `sanitize_filename` is idempotent, its output contains none of the
characters `< > : " / \ | ? *`, and its output has no leading and no
trailing whitespace. -/
theorem sanitize_filename_spec (s : String) :
    sanitize_filename (sanitize_filename s) = sanitize_filename s ∧
    (∀ c ∈ (sanitize_filename s).toList, isForbiddenChar c = false) ∧
    (∀ c, (sanitize_filename s).toList.head? = some c →
      pyIsSpace c = false) ∧
    (∀ c, (sanitize_filename s).toList.getLast? = some c →
      pyIsSpace c = false) := by
  refine ⟨?_, ?_, ?_, ?_⟩
  · have hmap : (pyStripL (s.toList.map replForbidden)).map replForbidden
        = pyStripL (s.toList.map replForbidden) := by
      apply map_eq_self_of_mem
      intro c hc
      obtain ⟨b, hb, rfl⟩ := List.mem_map.mp (mem_pyStripL hc)
      exact replForbidden_idem b
    unfold sanitize_filename
    rw [toList_mk, hmap, pyStripL_idem]
  · intro c hc
    unfold sanitize_filename at hc
    rw [toList_mk] at hc
    obtain ⟨b, hb, rfl⟩ := List.mem_map.mp (mem_pyStripL hc)
    exact replForbidden_not_forbidden b
  · intro c hc
    unfold sanitize_filename at hc
    rw [toList_mk] at hc
    exact head?_pyStripL hc
  · intro c hc
    unfold sanitize_filename at hc
    rw [toList_mk] at hc
    exact getLast?_pyStripL hc

theorem sanitize_filename_spec_w :
    sanitize_filename (sanitize_filename " a<b ") = sanitize_filename " a<b "
      ∧ isForbiddenChar 'a' = false :=
  ⟨(sanitize_filename_spec " a<b ").1,
   (sanitize_filename_spec " a<b ").2.1 'a' (by decide)⟩

end KoTeaBOT

